import Mathlib

/-!
Shallow embedding of the session-actor subsystem of the silly-chess
repository (`src/src/durable-objects/ChessGame.ts`), together with proofs
about the claims of its specification.

The `ChessGame` durable object owns one chess session.  Its persisted
aggregate is the `GameState` interface; the mutating operations are
`handleCreateGame`, `handleJoinGame`, `processPlayerMove`,
`processAIMoveInternal` and `processResign`.  The move-legality engine
(chess.js) is external to the subsystem and is modelled as an abstract
`RulesEngine` record of pure functions of the position string (the
specification itself treats the rules engine as an injected capability,
a pure function of the position).
-/

/-- Game status, from `type GameStatus` in ChessGame.ts. -/
inductive GameStatus
  | active
  | checkmate
  | stalemate
  | resigned
  | draw
deriving DecidableEq

/-- Game result string, from `type GameResult` ('1-0' | '0-1' | '1/2-1/2' | '*'). -/
inductive GameResult
  | whiteWins
  | blackWins
  | drawn
  | ongoing
deriving DecidableEq

/-- Player color, from `type PlayerColor`. -/
inductive Color
  | white
  | black
deriving DecidableEq

/-- Game mode, from `type GameMode` ('vs-ai' | 'vs-player'). -/
inductive GameMode
  | vsAI
  | vsPlayer
deriving DecidableEq

/-- Seat occupancy, from `interface Players` (white/black player tokens, nullable). -/
structure Players where
  white : Option String
  black : Option String
deriving DecidableEq

/-- The persisted session aggregate, from `interface GameState` in ChessGame.ts. -/
structure GameState where
  gameId : String
  gameMode : GameMode
  players : Players
  playerColor : Color
  fen : String
  moveHistory : List String
  uciHistory : List String
  status : GameStatus
  result : GameResult
  aiElo : Nat
  createdAt : Nat
  updatedAt : Nat
deriving DecidableEq

/-- JavaScript string truthiness for an optional token: `undefined`/`null` and
the empty string are falsy, every other string is truthy.  The source guards
such as `if (!playerToken)` and `if (players.white && players.black)` use
exactly this test. -/
def truthy : Option String → Bool
  | none => false
  | some t => t != ""

/-- Result of a successful `chess.move(...)` call: the position after the move
and the SAN notation of the move (the fields of the chess.js move object that
the session actor reads). -/
structure MoveOutcome where
  fen : String
  san : String
deriving DecidableEq

/-- Abstract interface to the external rules engine (chess.js), a record of
pure functions of the position string: `applyMove` models
`chess.move({from, to, promotion})` on a `chess` instance loaded at the given
fen (`none` models both a null return and a thrown exception, which the source
catches and converts to the same rejection), and the remaining fields model
`chess.turn()`, `chess.isCheck()`, `chess.isCheckmate()`, `chess.isStalemate()`
and `chess.isDraw()`. -/
structure RulesEngine where
  applyMove : String → String → String → Option String → Option MoveOutcome
  turn : String → Color
  isCheck : String → Bool
  isCheckmate : String → Bool
  isStalemate : String → Bool
  isDraw : String → Bool

/-- The canonical starting position: `new Chess().fen()` in the source. -/
def startFen : String := "rnbqkbnr/pppppppp/8/8/8/8/PPPPPPPP/RNBQKBNR w KQkq - 0 1"

/-- Who played a move, for the audit log (`played_by` column: 'player' | 'ai'). -/
inductive PlayedBy
  | player
  | ai
deriving DecidableEq

/-- The data carried by a `move_result` WebSocket / REST message
(`interface MoveResultMessage`). -/
structure MoveResultData where
  success : Bool
  fen : String
  san : String
  status : GameStatus
  turn : Color
  isCheck : Bool
  isCheckmate : Bool
  isStalemate : Bool
  isDraw : Bool
  lastFrom : String
  lastTo : String
deriving DecidableEq

/-- Response of a move-processing operation: either an `error{message}`
message or a `move_result` message. -/
inductive MoveResponse
  | error (message : String)
  | moveResult (r : MoveResultData)
deriving DecidableEq

/-- Whether a move response reports success (`result.type === 'move_result'
&& result.success`; `buildMoveResult` always sets `success: true`). -/
def MoveResponse.isSuccess : MoveResponse → Bool
  | .moveResult r => r.success
  | .error _ => false

/-- Externally visible side effects issued by an operation, in program order:
`state.storage.put('gameState', ...)`, the D1 `logMove` insert, the D1
`updateD1Game` update, `sendToSocket`, `broadcastExcept`, `broadcast`, and
returning the REST response.  Connections are identified by numbers. -/
inductive Effect
  | save (snapshot : GameState)
  | logMoveE (san : String) (uci : String) (playedBy : PlayedBy)
  | updateD1E
  | sendToE (conn : Nat) (msg : MoveResponse)
  | broadcastExceptE (conn : Nat) (msg : MoveResponse)
  | broadcastAllE (msg : MoveResponse)
  | respondE (msg : MoveResponse)
deriving DecidableEq

/-- Result of one move-processing operation: the actor's state afterwards, the
response sent to the requester, and the effect trace in program order. -/
structure OpResult where
  state : Option GameState
  response : MoveResponse
  effects : List Effect
deriving DecidableEq

/-- The four state-mutation lines of an accepted move in the source:
`gameState.fen = chess.fen(); moveHistory.push(move.san);
uciHistory.push(uci); updatedAt = Date.now()`. -/
def recordMove (s : GameState) (mo : MoveOutcome) (uci : String) (now : Nat) : GameState :=
  { s with fen := mo.fen,
           moveHistory := s.moveHistory ++ [mo.san],
           uciHistory := s.uciHistory ++ [uci],
           updatedAt := now }

/-- The `updateGameStatus` method: recompute terminal status from the rules
engine's post-move flags.  The winner of a checkmate is the side that just
moved (`turn() === 'w' ? 'black' : 'white'`). -/
def updateGameStatus (E : RulesEngine) (s : GameState) : GameState :=
  if E.isCheckmate s.fen then
    { s with status := .checkmate,
             result := if E.turn s.fen = .white then .blackWins else .whiteWins }
  else if E.isStalemate s.fen then
    { s with status := .stalemate, result := .drawn }
  else if E.isDraw s.fen then
    { s with status := .draw, result := .drawn }
  else s

/-- State after an accepted move: record the move, then recompute terminal
status from the post-move position. -/
def appliedState (E : RulesEngine) (s : GameState) (mo : MoveOutcome) (uci : String)
    (now : Nat) : GameState :=
  updateGameStatus E (recordMove s mo uci now)

/-- The `buildMoveResult` method: the `move_result` message built from the
post-move game state. -/
def buildMoveResult (E : RulesEngine) (s2 : GameState) (san lastFrom lastTo : String) :
    MoveResponse :=
  .moveResult
    { success := true
      fen := s2.fen
      san := san
      status := s2.status
      turn := E.turn s2.fen
      isCheck := E.isCheck s2.fen
      isCheckmate := E.isCheckmate s2.fen
      isStalemate := E.isStalemate s2.fen
      isDraw := E.isDraw s2.fen
      lastFrom := lastFrom
      lastTo := lastTo }

/-- Which seat token the side to move must present (`players[currentTurn]`). -/
def seatOf (pl : Players) : Color → Option String
  | .white => pl.white
  | .black => pl.black

/-- The turn/identity validation of `processPlayerMove` (lines 471-495 of the
source): returns the error message of the first failing check, or `none` when
the move may proceed to the rules engine. -/
def turnValidation (E : RulesEngine) (s : GameState) (playerToken : Option String) :
    Option String :=
  if s.gameMode = .vsPlayer then
    if truthy playerToken = false then
      some "Player token required for two-player games"
    else if (truthy s.players.white && truthy s.players.black) = false then
      some "Waiting for opponent to join"
    else if seatOf s.players (E.turn s.fen) ≠ playerToken then
      some "Not your turn"
    else none
  else
    if E.turn s.fen ≠ s.playerColor then some "Not your turn" else none

/-- The `processPlayerMove` method: validate status and turn, delegate the
move to the rules engine, record it, persist, log, and build the result.
A missing (`none`) actor state behaves like the `!this.gameState` guard. -/
def processPlayerMove (E : RulesEngine) (os : Option GameState) (now : Nat)
    (fromSq toSq : String) (promotion : Option String) (playerToken : Option String) :
    OpResult :=
  match os with
  | none => ⟨none, .error "Game not active", []⟩
  | some s =>
    if s.status ≠ .active then ⟨some s, .error "Game not active", []⟩
    else
      match turnValidation E s playerToken with
      | some m => ⟨some s, .error m, []⟩
      | none =>
        match E.applyMove s.fen fromSq toSq promotion with
        | none => ⟨some s, .error "Invalid move", []⟩
        | some mo =>
          let uci := fromSq ++ toSq ++ promotion.getD ""
          let s2 := appliedState E s mo uci now
          ⟨some s2, buildMoveResult E s2 mo.san fromSq toSq,
           [.save s2, .logMoveE mo.san uci .player, .updateD1E]⟩

/-- JavaScript `uciMove.substring(0, 2)`. -/
def uciFrom (u : String) : String := ((u.data.drop 0).take 2).asString

/-- JavaScript `uciMove.substring(2, 4)`. -/
def uciTo (u : String) : String := ((u.data.drop 2).take 2).asString

/-- JavaScript `uciMove.length > 4 ? uciMove[4] : undefined` (a one-character
string when present). -/
def uciPromo (u : String) : Option String :=
  if 4 < u.data.length then (u.data.get? 4).map (fun c => String.singleton c) else none

/-- The `processAIMoveInternal` method: validate status, parse the compact
(UCI) move string, delegate to the rules engine exactly as a player move,
record, persist, and log.  Note: the source has no turn or mode check here. -/
def processAIMoveInternal (E : RulesEngine) (os : Option GameState) (now : Nat)
    (uciMove : String) : OpResult :=
  match os with
  | none => ⟨none, .error "Game not active", []⟩
  | some s =>
    if s.status ≠ .active then ⟨some s, .error "Game not active", []⟩
    else
      match E.applyMove s.fen (uciFrom uciMove) (uciTo uciMove) (uciPromo uciMove) with
      | none => ⟨some s, .error "Invalid AI move", []⟩
      | some mo =>
        let s2 := appliedState E s mo uciMove now
        ⟨some s2, buildMoveResult E s2 mo.san (uciFrom uciMove) (uciTo uciMove),
         [.save s2, .logMoveE mo.san uciMove .ai, .updateD1E]⟩

/-- The `processResign` method: no status check, no requester identity; sets
status to resigned and the result to a loss for the creator's stored color
(`playerColor === 'white' ? '0-1' : '1-0'`), persists and broadcasts. -/
def processResign (os : Option GameState) (now : Nat) : Option GameState :=
  match os with
  | none => none
  | some s =>
    some { s with status := .resigned,
                  result := if s.playerColor = .white then .blackWins else .whiteWins,
                  updatedAt := now }

/-- Arguments of the create-game request body read by `handleCreateGame`. -/
structure CreateArgs where
  gameId : String
  playerColor : Color
  aiElo : Nat
  gameMode : GameMode
  playerToken : Option String
deriving DecidableEq

/-- The fresh session built by `handleCreateGame`: canonical start position,
empty histories, active status; for a two-player game with a truthy creator
token the creator's chosen seat is bound (`players[playerColor] = playerToken`). -/
def initGameState (args : CreateArgs) (now : Nat) : GameState :=
  { gameId := args.gameId
    gameMode := args.gameMode
    players :=
      if args.gameMode = .vsPlayer ∧ truthy args.playerToken = true then
        match args.playerColor with
        | .white => ⟨args.playerToken, none⟩
        | .black => ⟨none, args.playerToken⟩
      else ⟨none, none⟩
    playerColor := args.playerColor
    fen := startFen
    moveHistory := []
    uciHistory := []
    status := .active
    result := .ongoing
    aiElo := args.aiElo
    createdAt := now
    updatedAt := now }

/-- Response of `handleCreateGame`: the source always answers
`{success: true, ..., gameState}`; there is no failure constructor. -/
inductive CreateResponse
  | created (snapshot : GameState)
deriving DecidableEq

/-- The `handleCreateGame` method: unconditionally rebuilds the session from
the request body and persists it; the previous actor state is never consulted. -/
def handleCreateGame (os : Option GameState) (args : CreateArgs) (now : Nat) :
    Option GameState × CreateResponse :=
  (some (initGameState args now), .created (initGameState args now))

/-- Response of `handleJoinGame`: 404 when no game exists, 400 for an AI game
or a full game, otherwise the assigned color. -/
inductive JoinResponse
  | notFound
  | cannotJoinAI
  | gameFull
  | joined (playerColor : Color)
deriving DecidableEq

/-- The `handleJoinGame` method.  When both seats are truthy-bound: a token
matching a seat is an idempotent rejoin, any other token gets `gameFull`.
Otherwise the token is bound to the white seat if it is falsy, else to the
black seat.  Note: the source never checks `status` here. -/
def handleJoinGame (os : Option GameState) (now : Nat) (playerToken : String) :
    Option GameState × JoinResponse :=
  match os with
  | none => (none, .notFound)
  | some s =>
    if s.gameMode ≠ .vsPlayer then (some s, .cannotJoinAI)
    else if truthy s.players.white && truthy s.players.black then
      if s.players.white = some playerToken then (some s, .joined .white)
      else if s.players.black = some playerToken then (some s, .joined .black)
      else (some s, .gameFull)
    else if truthy s.players.white = false then
      (some { s with players := { s.players with white := some playerToken },
                     updatedAt := now }, .joined .white)
    else
      (some { s with players := { s.players with black := some playerToken },
                     updatedAt := now }, .joined .black)

/-- A client `move` message with its optional promotion and seat token fields
(the REST body is `MoveMessage & {playerToken?}`). -/
structure ClientMoveMsg where
  fromSq : String
  toSq : String
  promotion : Option String
  playerToken : Option String
deriving DecidableEq

/-- The WebSocket `processMove` handler: it forwards only `data.from`,
`data.to`, `data.promotion` to `processPlayerMove` (no token argument), then
always sends the result to the requesting socket first and broadcasts it to
the remaining sockets second. -/
def processMove (E : RulesEngine) (os : Option GameState) (now : Nat)
    (m : ClientMoveMsg) (ws : Nat) : OpResult :=
  let r := processPlayerMove E os now m.fromSq m.toSq m.promotion none
  ⟨r.state, r.response, r.effects ++ [.sendToE ws r.response, .broadcastExceptE ws r.response]⟩

/-- The REST `handleMove` handler: forwards the body's token to
`processPlayerMove`, broadcasts to all sockets when (and only when) the move
succeeded, then returns the JSON response. -/
def handleMove (E : RulesEngine) (os : Option GameState) (now : Nat)
    (m : ClientMoveMsg) : OpResult :=
  let r := processPlayerMove E os now m.fromSq m.toSq m.promotion m.playerToken
  let effs := if r.response.isSuccess then r.effects ++ [.broadcastAllE r.response]
    else r.effects
  ⟨r.state, r.response, effs ++ [.respondE r.response]⟩

/-- One mutating operation of the session actor, at the actor-state level
(arbitrary request arguments and clock values). -/
inductive Step (E : RulesEngine) : Option GameState → Option GameState → Prop
  | create (os : Option GameState) (args : CreateArgs) (now : Nat) :
      Step E os (handleCreateGame os args now).1
  | join (os : Option GameState) (now : Nat) (tok : String) :
      Step E os (handleJoinGame os now tok).1
  | playerMove (os : Option GameState) (a b : String) (p tok : Option String) (now : Nat) :
      Step E os (processPlayerMove E os now a b p tok).state
  | aiMove (os : Option GameState) (u : String) (now : Nat) :
      Step E os (processAIMoveInternal E os now u).state
  | resign (os : Option GameState) (now : Nat) :
      Step E os (processResign os now)

/-- Actor states reachable from the empty actor by any sequence of operations. -/
def Reachable (E : RulesEngine) (os : Option GameState) : Prop :=
  Relation.ReflTransGen (Step E) none os

/-- One step of replaying a stored compact-notation entry: parse it exactly as
`processAIMoveInternal` parses a compact move and apply it with the rules
engine. -/
def replayStep (E : RulesEngine) (f : String) (u : String) : Option String :=
  (E.applyMove f (uciFrom u) (uciTo u) (uciPromo u)).map (fun mo => mo.fen)

/-- Replay a stored move log in order from a starting position. -/
def replayFrom (E : RulesEngine) (f : String) : List String → Option String
  | [] => some f
  | u :: rest =>
    match replayStep E f u with
    | none => none
    | some g => replayFrom E g rest

/-- Structural well-formedness of a rules engine: an accepted move names its
squares as two-character coordinates and its promotion, when present, as a
single character.  This matches chess.js, whose move objects only accept
exact square names and one-letter promotion pieces. -/
def EngineOK (E : RulesEngine) : Prop :=
  ∀ f a b p mo, E.applyMove f a b p = some mo →
    a.data.length = 2 ∧ b.data.length = 2 ∧
    (p = none ∨ ∃ c, p = some (String.singleton c))

/-- Round-trip property of a rules engine: re-parsing and re-applying the
compact string stored for an accepted move reproduces the move's resulting
position. -/
def EngineRoundTrip (E : RulesEngine) : Prop :=
  ∀ f a b p mo, E.applyMove f a b p = some mo →
    replayStep E f (a ++ b ++ p.getD "") = some mo.fen


/-- The position after 1. e4 (used by the concrete test engine below). -/
def fenAfterE4 : String :=
  "rnbqkbnr/pppppppp/8/8/4P3/8/PPPP1PPP/RNBQKBNR b KQkq e3 0 1"

/-- Concrete test rules engine: accepts exactly the move e2-e4 from the
canonical start position (as chess.js does), rejects everything else, and
reports no checks or terminal conditions. -/
def toyApply (f a b : String) (p : Option String) : Option MoveOutcome :=
  if f = startFen ∧ a = "e2" ∧ b = "e4" ∧ p = none then some ⟨fenAfterE4, "e4"⟩
  else none

/-- Side to move of the concrete test engine: white at the start position,
black afterwards. -/
def toyTurn (f : String) : Color :=
  if f = startFen then .white else .black

/-- The concrete test engine assembled from `toyApply` and `toyTurn`. -/
def toyEngine : RulesEngine :=
  { applyMove := toyApply
    turn := toyTurn
    isCheck := fun _ => false
    isCheckmate := fun _ => false
    isStalemate := fun _ => false
    isDraw := fun _ => false }

/-- Create-game arguments for a single-player test session (creator white). -/
def toyArgs : CreateArgs :=
  { gameId := "g1", playerColor := .white, aiElo := 1500, gameMode := .vsAI,
    playerToken := none }

/-- The freshly created single-player test session. -/
def createdToy : GameState := initGameState toyArgs 0

/-- The test session after the accepted player move e2-e4. -/
def toyAfterMove : GameState :=
  { gameId := "g1", gameMode := .vsAI, players := ⟨none, none⟩, playerColor := .white,
    fen := fenAfterE4, moveHistory := ["e4"], uciHistory := ["e2e4"], status := .active,
    result := .ongoing, aiElo := 1500, createdAt := 0, updatedAt := 1 }

/-- A two-player test session with both seats bound and white to move. -/
def twoPlayerState : GameState :=
  { gameId := "g2", gameMode := .vsPlayer, players := ⟨some "alice", some "bob"⟩,
    playerColor := .white, fen := startFen, moveHistory := [], uciHistory := [],
    status := .active, result := .ongoing, aiElo := 1500, createdAt := 0, updatedAt := 0 }

/-- A finished (checkmate) two-player test session with an open black seat. -/
def terminalState : GameState :=
  { gameId := "g3", gameMode := .vsPlayer, players := ⟨some "alice", none⟩,
    playerColor := .white, fen := fenAfterE4, moveHistory := ["e4"],
    uciHistory := ["e2e4"], status := .checkmate, result := .whiteWins, aiElo := 1500,
    createdAt := 0, updatedAt := 1 }

/-- The `move` message ⟨e2, e4⟩ carrying the white seat token of
`twoPlayerState`. -/
def toyMsg : ClientMoveMsg :=
  { fromSq := "e2", toSq := "e4", promotion := none, playerToken := some "alice" }

/-- The `move_result` message produced by the accepted test move e2-e4. -/
def toyResp : MoveResponse :=
  .moveResult
    { success := true, fen := fenAfterE4, san := "e4", status := .active, turn := .black,
      isCheck := false, isCheckmate := false, isStalemate := false, isDraw := false,
      lastFrom := "e2", lastTo := "e4" }

theorem data_append3 (a b g : String) :
    (a ++ b ++ g).data = a.data ++ (b.data ++ g.data) := by
  rw [String.data_append, String.data_append, List.append_assoc]

theorem uciFrom_append (a b g : String) (ha : a.data.length = 2) :
    uciFrom (a ++ b ++ g) = a := by
  rcases List.length_eq_two.mp ha with ⟨c1, c2, hc⟩
  unfold uciFrom
  rw [data_append3, hc]
  have h2 : List.take 2 (List.drop 0 ([c1, c2] ++ (b.data ++ g.data))) = [c1, c2] := rfl
  rw [h2, ← hc]
  rfl

theorem uciTo_append (a b g : String) (ha : a.data.length = 2)
    (hb : b.data.length = 2) : uciTo (a ++ b ++ g) = b := by
  rcases List.length_eq_two.mp ha with ⟨c1, c2, hc⟩
  rcases List.length_eq_two.mp hb with ⟨d1, d2, hd⟩
  unfold uciTo
  rw [data_append3, hc, hd]
  have h2 : List.take 2 (List.drop 2 ([c1, c2] ++ ([d1, d2] ++ g.data))) = [d1, d2] := rfl
  rw [h2, ← hd]
  rfl

theorem uciPromo_append (a b : String) (p : Option String)
    (ha : a.data.length = 2) (hb : b.data.length = 2)
    (hp : p = none ∨ ∃ c, p = some (String.singleton c)) :
    uciPromo (a ++ b ++ p.getD "") = p := by
  rcases List.length_eq_two.mp ha with ⟨c1, c2, hc⟩
  rcases List.length_eq_two.mp hb with ⟨d1, d2, hd⟩
  unfold uciPromo
  rw [data_append3, hc, hd]
  rcases hp with hp | ⟨c, hp⟩ <;> subst hp
  · rfl
  · rfl

theorem engineOK_roundTrip (E : RulesEngine) (h : EngineOK E) : EngineRoundTrip E := by
  intro f a b p mo ha
  obtain ⟨h2a, h2b, hp⟩ := h f a b p mo ha
  unfold replayStep
  rw [uciFrom_append a b _ h2a, uciTo_append a b _ h2a h2b, uciPromo_append a b p h2a h2b hp,
    ha]
  rfl

theorem updateGameStatus_fen (E : RulesEngine) (s : GameState) :
    (updateGameStatus E s).fen = s.fen := by
  unfold updateGameStatus
  split_ifs <;> rfl

theorem updateGameStatus_uciHistory (E : RulesEngine) (s : GameState) :
    (updateGameStatus E s).uciHistory = s.uciHistory := by
  unfold updateGameStatus
  split_ifs <;> rfl

theorem updateGameStatus_moveHistory (E : RulesEngine) (s : GameState) :
    (updateGameStatus E s).moveHistory = s.moveHistory := by
  unfold updateGameStatus
  split_ifs <;> rfl

/-- Case analysis of `processPlayerMove`: the operation either rejects,
returning the unchanged actor state, an error message and no effects, or
accepts a rules-engine-approved move and produces exactly the recorded state,
its `move_result`, and the save/log/update effect trace. -/
theorem playerMove_shape (E : RulesEngine) (os : Option GameState) (now : Nat)
    (a b : String) (p tok : Option String) :
    (∃ m, processPlayerMove E os now a b p tok = ⟨os, .error m, []⟩) ∨
    (∃ s mo, os = some s ∧ s.status = .active ∧ E.applyMove s.fen a b p = some mo ∧
      processPlayerMove E os now a b p tok =
        ⟨some (appliedState E s mo (a ++ b ++ p.getD "") now),
         buildMoveResult E (appliedState E s mo (a ++ b ++ p.getD "") now) mo.san a b,
         [.save (appliedState E s mo (a ++ b ++ p.getD "") now),
          .logMoveE mo.san (a ++ b ++ p.getD "") .player, .updateD1E]⟩) := by
  cases os with
  | none => exact Or.inl ⟨"Game not active", rfl⟩
  | some s =>
    by_cases hst : s.status = .active
    · have hne : ¬ (s.status ≠ GameStatus.active) := by simp [hst]
      cases hv : turnValidation E s tok with
      | some m =>
        refine Or.inl ⟨m, ?_⟩
        simp only [processPlayerMove, if_neg hne, hv]
      | none =>
        cases ha : E.applyMove s.fen a b p with
        | none =>
          refine Or.inl ⟨"Invalid move", ?_⟩
          simp only [processPlayerMove, if_neg hne, hv, ha]
        | some mo =>
          refine Or.inr ⟨s, mo, rfl, hst, ha, ?_⟩
          simp only [processPlayerMove, if_neg hne, hv, ha]
    · refine Or.inl ⟨"Game not active", ?_⟩
      simp only [processPlayerMove, if_pos hst]

/-- Case analysis of `processAIMoveInternal`, analogous to `playerMove_shape`. -/
theorem aiMove_shape (E : RulesEngine) (os : Option GameState) (now : Nat) (u : String) :
    (∃ m, processAIMoveInternal E os now u = ⟨os, .error m, []⟩) ∨
    (∃ s mo, os = some s ∧ s.status = .active ∧
      E.applyMove s.fen (uciFrom u) (uciTo u) (uciPromo u) = some mo ∧
      processAIMoveInternal E os now u =
        ⟨some (appliedState E s mo u now),
         buildMoveResult E (appliedState E s mo u now) mo.san (uciFrom u) (uciTo u),
         [.save (appliedState E s mo u now), .logMoveE mo.san u .ai, .updateD1E]⟩) := by
  cases os with
  | none => exact Or.inl ⟨"Game not active", rfl⟩
  | some s =>
    by_cases hst : s.status = .active
    · have hne : ¬ (s.status ≠ GameStatus.active) := by simp [hst]
      cases ha : E.applyMove s.fen (uciFrom u) (uciTo u) (uciPromo u) with
      | none =>
        refine Or.inl ⟨"Invalid AI move", ?_⟩
        simp only [processAIMoveInternal, if_neg hne, ha]
      | some mo =>
        refine Or.inr ⟨s, mo, rfl, hst, ha, ?_⟩
        simp only [processAIMoveInternal, if_neg hne, ha]
    · refine Or.inl ⟨"Game not active", ?_⟩
      simp only [processAIMoveInternal, if_pos hst]

/-- Case analysis of `handleJoinGame`'s state change: it either leaves the
actor state untouched or updates only the seats and `updatedAt`. -/
theorem join_shape (os : Option GameState) (now : Nat) (tok : String) :
    (handleJoinGame os now tok).1 = os ∨
    (∃ s w2 b2, os = some s ∧
      (handleJoinGame os now tok).1 =
        some { s with players := ⟨w2, b2⟩, updatedAt := now }) := by
  cases os with
  | none => exact Or.inl rfl
  | some s =>
    by_cases hm : s.gameMode = .vsPlayer
    · have hne : ¬ (s.gameMode ≠ GameMode.vsPlayer) := by simp [hm]
      by_cases hf : (truthy s.players.white && truthy s.players.black) = true
      · by_cases hw : s.players.white = some tok
        · refine Or.inl ?_
          simp only [handleJoinGame, if_neg hne, if_pos hf, if_pos hw]
        · by_cases hb : s.players.black = some tok
          · refine Or.inl ?_
            simp only [handleJoinGame, if_neg hne, if_pos hf, if_neg hw, if_pos hb]
          · refine Or.inl ?_
            simp only [handleJoinGame, if_neg hne, if_pos hf, if_neg hw, if_neg hb]
      · by_cases hw : truthy s.players.white = false
        · refine Or.inr ⟨s, some tok, s.players.black, rfl, ?_⟩
          simp only [handleJoinGame, if_neg hne, if_neg hf, if_pos hw]
        · refine Or.inr ⟨s, s.players.white, some tok, rfl, ?_⟩
          simp only [handleJoinGame, if_neg hne, if_neg hf, if_neg hw]
    · refine Or.inl ?_
      simp only [handleJoinGame, if_pos hm]

theorem replayFrom_append (E : RulesEngine) (f : String) (us : List String) (u : String) :
    replayFrom E f (us ++ [u]) =
      (replayFrom E f us).bind (fun g => replayStep E g u) := by
  induction us generalizing f with
  | nil =>
    show replayFrom E f [u] = (some f).bind (fun g => replayStep E g u)
    rw [Option.some_bind]
    cases h : replayStep E f u with
    | none => simp only [replayFrom, h]
    | some g => simp only [replayFrom, h]
  | cons v vs ih =>
    rw [List.cons_append]
    cases h : replayStep E f v with
    | none => simp only [replayFrom, h, Option.none_bind]
    | some g =>
      simp only [replayFrom, h]
      exact ih g

/-- A two-player test session with only the white seat bound and the game
still active. -/
def halfJoinedState : GameState :=
  { gameId := "g4", gameMode := .vsPlayer, players := ⟨some "alice", none⟩,
    playerColor := .white, fen := startFen, moveHistory := [], uciHistory := [],
    status := .active, result := .ongoing, aiElo := 1500, createdAt := 0, updatedAt := 0 }

/-- The `move` message ⟨e2, e4⟩ without any seat token. -/
def msgNoTok : ClientMoveMsg :=
  { fromSq := "e2", toSq := "e4", promotion := none, playerToken := none }

/-- Checks that a WebSocket move operation's effect trace has exactly the
shape of an accepted move: the durable save of the new state first, then the
audit-log effects, then the response to the originating socket, then the
broadcast to the remaining sockets — in that order. -/
def wsTraceOrdered (ws : Nat) (o : OpResult) : Bool :=
  match o.state, o.effects with
  | some s2, [Effect.save s1, Effect.logMoveE _ _ PlayedBy.player, Effect.updateD1E,
      Effect.sendToE w1 r1, Effect.broadcastExceptE w2 r2] =>
    decide (s1 = s2) && decide (w1 = ws) && decide (w2 = ws) &&
    decide (r1 = o.response) && decide (r2 = o.response)
  | _, _ => false

/-- Checks that a REST move operation's effect trace has exactly the shape of
an accepted move: the durable save of the new state first, then the audit-log
effects, then the broadcast, then the HTTP response — in that order. -/
def restTraceOrdered (o : OpResult) : Bool :=
  match o.state, o.effects with
  | some s2, [Effect.save s1, Effect.logMoveE _ _ PlayedBy.player, Effect.updateD1E,
      Effect.broadcastAllE r1, Effect.respondE r2] =>
    decide (s1 = s2) && decide (r1 = o.response) && decide (r2 = o.response)
  | _, _ => false

theorem toyEngineOK : EngineOK toyEngine := by
  intro f a b p mo h
  have h' : toyApply f a b p = some mo := h
  unfold toyApply at h'
  split_ifs at h' with hc
  obtain ⟨hf, ha, hb, hp⟩ := hc
  subst ha
  subst hb
  subst hp
  exact ⟨by decide, by decide, Or.inl rfl⟩

/-- C2 (confirmed): for every reachable session state, replaying the stored
compact move log in order from the canonical start position with the rules
engine yields exactly the session's current position, under the engine
round-trip assumption (re-applying an accepted move's stored compact string
reproduces its resulting position, as chess.js does). -/
theorem replay_determinism (E : RulesEngine) (hE : EngineRoundTrip E)
    (os : Option GameState) (h : Reachable E os) :
    ∀ s, os = some s → replayFrom E startFen s.uciHistory = some s.fen := by
  have h' : Relation.ReflTransGen (Step E) none os := h
  clear h
  induction h' with
  | refl => intro s hs; cases hs
  | @tail osMid osNext hprev hstep ih =>
    cases hstep with
    | create args now2 =>
      intro s hs
      have h2 : initGameState args now2 = s := by
        simpa [handleCreateGame] using hs
      subst h2
      rfl
    | join now2 tok =>
      intro s hs
      rcases join_shape osMid now2 tok with hsame | ⟨s0, w2, b2, hos, heq⟩
      · exact ih s (hsame ▸ hs)
      · rw [heq] at hs
        injection hs with h2
        subst h2
        exact ih s0 hos
    | playerMove a b p tok now2 =>
      intro s hs
      rcases playerMove_shape E osMid now2 a b p tok with ⟨m, heq⟩ | ⟨s0, mo, hos, hact, happ, heq⟩
      · rw [heq] at hs
        exact ih s hs
      · rw [heq] at hs
        have hs' : some (appliedState E s0 mo (a ++ b ++ p.getD "") now2) = some s := hs
        injection hs' with h2
        subst h2
        have hu := ih s0 hos
        unfold appliedState
        rw [updateGameStatus_uciHistory, updateGameStatus_fen]
        show replayFrom E startFen (s0.uciHistory ++ [a ++ b ++ p.getD ""]) = some mo.fen
        rw [replayFrom_append, hu, Option.some_bind]
        exact hE s0.fen a b p mo happ
    | aiMove u now2 =>
      intro s hs
      rcases aiMove_shape E osMid now2 u with ⟨m, heq⟩ | ⟨s0, mo, hos, hact, happ, heq⟩
      · rw [heq] at hs
        exact ih s hs
      · rw [heq] at hs
        have hs' : some (appliedState E s0 mo u now2) = some s := hs
        injection hs' with h2
        subst h2
        have hu := ih s0 hos
        unfold appliedState
        rw [updateGameStatus_uciHistory, updateGameStatus_fen]
        show replayFrom E startFen (s0.uciHistory ++ [u]) = some mo.fen
        rw [replayFrom_append, hu, Option.some_bind]
        unfold replayStep
        rw [happ]
        rfl
    | resign now2 =>
      intro s hs
      cases osMid with
      | none => exact Option.noConfusion hs
      | some s0 =>
        simp only [processResign] at hs
        injection hs with h2
        subst h2
        exact ih s0 rfl

/-- Witness for C2: a session reached by creating a game and playing e2-e4
satisfies the replay invariant. -/
theorem replay_determinism_witness :
    replayFrom toyEngine startFen toyAfterMove.uciHistory = some toyAfterMove.fen := by
  have h1 : Reachable toyEngine (some createdToy) :=
    Relation.ReflTransGen.single (@Step.create toyEngine none toyArgs 0)
  have hstep2 := @Step.playerMove toyEngine (some createdToy) "e2" "e4" none none 1
  have hstate :
      (processPlayerMove toyEngine (some createdToy) 1 "e2" "e4" none none).state =
        some toyAfterMove := by decide
  have hr : Reachable toyEngine (some toyAfterMove) := by
    have h3 := Relation.ReflTransGen.tail h1 hstep2
    rwa [hstate] at h3
  exact replay_determinism toyEngine (engineOK_roundTrip toyEngine toyEngineOK)
    (some toyAfterMove) hr toyAfterMove rfl

/-- C10 (confirmed): in every reachable session state the SAN history and the
compact (UCI) history have the same length: both start empty at creation and
every operation that appends to one appends to the other in the same step. -/
theorem histories_same_length (E : RulesEngine) (os : Option GameState)
    (h : Reachable E os) :
    ∀ s, os = some s → s.moveHistory.length = s.uciHistory.length := by
  have h' : Relation.ReflTransGen (Step E) none os := h
  clear h
  induction h' with
  | refl => intro s hs; cases hs
  | @tail osMid osNext hprev hstep ih =>
    cases hstep with
    | create args now2 =>
      intro s hs
      have h2 : initGameState args now2 = s := by
        simpa [handleCreateGame] using hs
      subst h2
      rfl
    | join now2 tok =>
      intro s hs
      rcases join_shape osMid now2 tok with hsame | ⟨s0, w2, b2, hos, heq⟩
      · exact ih s (hsame ▸ hs)
      · rw [heq] at hs
        injection hs with h2
        subst h2
        exact ih s0 hos
    | playerMove a b p tok now2 =>
      intro s hs
      rcases playerMove_shape E osMid now2 a b p tok with ⟨m, heq⟩ | ⟨s0, mo, hos, hact, happ, heq⟩
      · rw [heq] at hs
        exact ih s hs
      · rw [heq] at hs
        have hs' : some (appliedState E s0 mo (a ++ b ++ p.getD "") now2) = some s := hs
        injection hs' with h2
        subst h2
        have hu := ih s0 hos
        unfold appliedState
        rw [updateGameStatus_uciHistory, updateGameStatus_moveHistory]
        show (s0.moveHistory ++ [mo.san]).length =
          (s0.uciHistory ++ [a ++ b ++ p.getD ""]).length
        simp [hu]
    | aiMove u now2 =>
      intro s hs
      rcases aiMove_shape E osMid now2 u with ⟨m, heq⟩ | ⟨s0, mo, hos, hact, happ, heq⟩
      · rw [heq] at hs
        exact ih s hs
      · rw [heq] at hs
        have hs' : some (appliedState E s0 mo u now2) = some s := hs
        injection hs' with h2
        subst h2
        have hu := ih s0 hos
        unfold appliedState
        rw [updateGameStatus_uciHistory, updateGameStatus_moveHistory]
        show (s0.moveHistory ++ [mo.san]).length = (s0.uciHistory ++ [u]).length
        simp [hu]
    | resign now2 =>
      intro s hs
      cases osMid with
      | none => exact Option.noConfusion hs
      | some s0 =>
        simp only [processResign] at hs
        injection hs with h2
        subst h2
        exact ih s0 rfl

/-- Witness for C10: the invariant holds at a concretely reached state. -/
theorem histories_same_length_witness :
    toyAfterMove.moveHistory.length = toyAfterMove.uciHistory.length := by
  have h1 : Reachable toyEngine (some createdToy) :=
    Relation.ReflTransGen.single (@Step.create toyEngine none toyArgs 0)
  have hstep2 := @Step.playerMove toyEngine (some createdToy) "e2" "e4" none none 1
  have hstate :
      (processPlayerMove toyEngine (some createdToy) 1 "e2" "e4" none none).state =
        some toyAfterMove := by decide
  have hr : Reachable toyEngine (some toyAfterMove) := by
    have h3 := Relation.ReflTransGen.tail h1 hstep2
    rwa [hstate] at h3
  exact histories_same_length toyEngine (some toyAfterMove) hr toyAfterMove rfl

/-- Counterexample for C1: `processResign` performs no status check, so on a
session already finished by checkmate it overwrites the status with
`resigned` instead of failing with a session-not-active error — the status
transitions out of a terminal value, contradicting the claim. -/
theorem resign_ignores_terminal_status_cex :
    terminalState.status = GameStatus.checkmate ∧
    (processResign (some terminalState) 11).map GameState.status =
      some GameStatus.resigned ∧
    GameStatus.resigned ≠ GameStatus.checkmate := by decide

/-- C1 (corrected, amended): once the status is terminal, `SubmitMove` and
`SubmitEngineMove` fail with the game-not-active error and leave the state
unchanged with no effects; but `Resign` performs no status check (it
overwrites status with `resigned` and the result with a loss for the
creator's color even on a finished session), and `JoinSession` performs no
status check either (on a terminal TwoPlayer session with a bound white seat
and an open black seat it still binds the black seat). -/
theorem terminal_state_operations (E : RulesEngine) (s : GameState) (now : Nat)
    (a b : String) (p tok : Option String) (u : String) (tok2 : String)
    (h : s.status ≠ GameStatus.active) :
    processPlayerMove E (some s) now a b p tok =
      ⟨some s, .error "Game not active", []⟩ ∧
    processAIMoveInternal E (some s) now u =
      ⟨some s, .error "Game not active", []⟩ ∧
    processResign (some s) now =
      some { s with status := GameStatus.resigned,
                    result := (if s.playerColor = Color.white then GameResult.blackWins
                      else GameResult.whiteWins),
                    updatedAt := now } ∧
    (s.gameMode = GameMode.vsPlayer → truthy s.players.white = true →
      truthy s.players.black = false →
      handleJoinGame (some s) now tok2 =
        (some { s with players := { s.players with black := some tok2 },
                       updatedAt := now },
         JoinResponse.joined Color.black)) := by
  refine ⟨?_, ?_, ?_, ?_⟩
  · simp only [processPlayerMove, if_pos h]
  · simp only [processAIMoveInternal, if_pos h]
  · simp only [processResign]
  · intro hm hw hb
    have hne : ¬ (s.gameMode ≠ GameMode.vsPlayer) := by simp [hm]
    have hf : ¬ ((truthy s.players.white && truthy s.players.black) = true) := by
      simp [hb]
    have hw2 : ¬ (truthy s.players.white = false) := by simp [hw]
    simp only [handleJoinGame, if_neg hne, if_neg hf, if_neg hw2]

/-- Witness for C1's amended theorem at a concrete terminal session. -/
theorem terminal_state_operations_witness :
    processPlayerMove toyEngine (some terminalState) 2 "e2" "e4" none (some "alice") =
      ⟨some terminalState, .error "Game not active", []⟩ ∧
    processAIMoveInternal toyEngine (some terminalState) 2 "e2e4" =
      ⟨some terminalState, .error "Game not active", []⟩ ∧
    (processResign (some terminalState) 2).map GameState.result =
      some GameResult.blackWins ∧
    (handleJoinGame (some terminalState) 2 "bob").2 = JoinResponse.joined Color.black := by
  have h := terminal_state_operations toyEngine terminalState 2 "e2" "e4" none
    (some "alice") "e2e4" "bob" (by decide)
  refine ⟨h.1, h.2.1, ?_, ?_⟩
  · rw [h.2.2.1]
    decide
  · have h4 := h.2.2.2 (by decide) (by decide) (by decide)
    rw [h4]

/-- Counterexample for C3: in a TwoPlayer session created by white, the
resign operation carries no requester identity (both the WebSocket `resign`
message and the REST resign route invoke the same tokenless `processResign`),
and the recorded result is always a win for black; when the black-seat holder
is the one who resigns, the claim would require a win for white. -/
theorem resign_result_ignores_requester_cex :
    twoPlayerState.gameMode = GameMode.vsPlayer ∧
    twoPlayerState.playerColor = Color.white ∧
    (processResign (some twoPlayerState) 9).map GameState.result =
      some GameResult.blackWins ∧
    GameResult.blackWins ≠ GameResult.whiteWins := by decide

/-- C3 (corrected, amended): Resign sets the status to Resigned and the
result to a win for the side opposite the session creator's stored color,
in every mode and regardless of who requested the resignation (the operation
has no requester input). -/
theorem resign_sets_creator_opponent_winner (s : GameState) (now : Nat) :
    processResign (some s) now =
      some { s with status := GameStatus.resigned,
                    result := (if s.playerColor = Color.white then GameResult.blackWins
                      else GameResult.whiteWins),
                    updatedAt := now } := by
  simp only [processResign]

/-- Counterexample for C4: in a TwoPlayer session where token "alice" is
already bound to the white seat and the black seat is still open, joining
again with "alice" does not return the white seat unchanged — it binds
"alice" to the black seat as well. -/
theorem join_rebinds_bound_token_cex :
    halfJoinedState.players.white = some "alice" ∧
    halfJoinedState.players.black = none ∧
    (handleJoinGame (some halfJoinedState) 5 "alice").2 =
      JoinResponse.joined Color.black ∧
    (handleJoinGame (some halfJoinedState) 5 "alice").1.map
      (fun s => s.players.black) = some (some "alice") ∧
    JoinResponse.joined Color.black ≠ JoinResponse.joined Color.white := by decide

/-- C4 (corrected, amended): join idempotence holds only once both seats are
bound: if both seats are truthy-bound and the token matches one of them,
`JoinSession` returns that seat and leaves the state unchanged; when the
other seat is still open, rejoining with an already-bound token instead binds
it to the open seat (see the counterexample). -/
theorem join_idempotent_when_full (s : GameState) (now : Nat) (tok : String)
    (hm : s.gameMode = GameMode.vsPlayer)
    (hw : truthy s.players.white = true)
    (hb : truthy s.players.black = true)
    (hmatch : s.players.white = some tok ∨ s.players.black = some tok) :
    handleJoinGame (some s) now tok =
      (some s, JoinResponse.joined
        (if s.players.white = some tok then Color.white else Color.black)) := by
  have hne : ¬ (s.gameMode ≠ GameMode.vsPlayer) := by simp [hm]
  have hf : (truthy s.players.white && truthy s.players.black) = true := by
    simp [hw, hb]
  by_cases hwt : s.players.white = some tok
  · simp only [handleJoinGame, if_neg hne, if_pos hf, if_pos hwt]
  · rcases hmatch with hx | hbt
    · exact absurd hx hwt
    · simp only [handleJoinGame, if_neg hne, if_pos hf, if_neg hwt, if_pos hbt]

/-- Witness for C4's amended theorem: rejoining a full session with the
white-seat token returns the white seat and changes nothing. -/
theorem join_idempotent_when_full_witness :
    handleJoinGame (some twoPlayerState) 3 "alice" =
      (some twoPlayerState, JoinResponse.joined Color.white) := by
  have h := join_idempotent_when_full twoPlayerState 3 "alice" (by decide) (by decide)
    (by decide) (Or.inl (by decide))
  have h2 : (if twoPlayerState.players.white = some "alice" then Color.white
      else Color.black) = Color.white := by decide
  rw [h2] at h
  exact h

/-- Counterexample for C5: calling create again on an existing session (here
one with a played move and a terminal status) does not fail with an
already-exists error leaving the state unchanged — it reinitializes the
session to an empty, active game. -/
theorem create_overwrites_existing_cex :
    terminalState.moveHistory = ["e4"] ∧
    terminalState.status = GameStatus.checkmate ∧
    (handleCreateGame (some terminalState) toyArgs 7).1.map GameState.moveHistory =
      some [] ∧
    (handleCreateGame (some terminalState) toyArgs 7).1.map GameState.status =
      some GameStatus.active ∧
    (handleCreateGame (some terminalState) toyArgs 7).2 =
      CreateResponse.created (initGameState toyArgs 7) := by decide

/-- C5 (corrected, amended): CreateSession never fails with AlreadyExists; a
repeated call for the same id unconditionally reinitializes the session
(start position, empty move logs, active status, seats rebuilt from the
request) without consulting the existing state. -/
theorem create_always_reinitializes (os : Option GameState) (args : CreateArgs)
    (now : Nat) :
    handleCreateGame os args now =
      (some (initGameState args now), CreateResponse.created (initGameState args now)) :=
  rfl

/-- Counterexample for C6: on a fresh engine session where the human plays
white and it is white's (the human's) turn, a submitted engine move is not
rejected — it is applied and appended to the histories, because
`processAIMoveInternal` has no turn check at all. -/
theorem engine_move_no_turn_check_cex :
    createdToy.gameMode = GameMode.vsAI ∧
    toyEngine.turn createdToy.fen = createdToy.playerColor ∧
    (processAIMoveInternal toyEngine (some createdToy) 3 "e2e4").response.isSuccess =
      true ∧
    (processAIMoveInternal toyEngine (some createdToy) 3 "e2e4").state.map
      GameState.uciHistory = some ["e2e4"] := by decide

/-- C6 (corrected, amended): `SubmitEngineMove` performs no turn (or mode)
check whatsoever; the proposed compact move is still validated by the rules
engine with the same `applyMove` query used for human moves, and when the
engine rejects it (malformed or illegal) the operation returns an error with
the state unchanged and no effects. -/
theorem engine_move_engine_validation (E : RulesEngine) (s : GameState) (now : Nat)
    (u : String) (h1 : s.status = GameStatus.active)
    (h2 : E.applyMove s.fen (uciFrom u) (uciTo u) (uciPromo u) = none) :
    processAIMoveInternal E (some s) now u =
      ⟨some s, MoveResponse.error "Invalid AI move", []⟩ := by
  have hne : ¬ (s.status ≠ GameStatus.active) := by simp [h1]
  simp only [processAIMoveInternal, if_neg hne, h2]

/-- Witness for C6's amended theorem: a malformed engine move is rejected
with the state unchanged. -/
theorem engine_move_engine_validation_witness :
    processAIMoveInternal toyEngine (some createdToy) 4 "zz11" =
      ⟨some createdToy, MoveResponse.error "Invalid AI move", []⟩ :=
  engine_move_engine_validation toyEngine createdToy 4 "zz11" (by decide) (by decide)

/-- C8 (confirmed): every rejected `SubmitMove` returns a structured error
and leaves the actor state exactly as it was (hence position, move logs,
status, seats and `updatedAt` are all unchanged), issuing no effects. -/
theorem rejected_move_state_unchanged (E : RulesEngine) (os : Option GameState)
    (now : Nat) (a b : String) (p tok : Option String) (msg : String)
    (h : (processPlayerMove E os now a b p tok).response = MoveResponse.error msg) :
    (processPlayerMove E os now a b p tok).state = os ∧
    (processPlayerMove E os now a b p tok).effects = [] := by
  rcases playerMove_shape E os now a b p tok with ⟨m1, heq⟩ | ⟨s0, mo, hos, hact, happ, heq⟩
  · rw [heq]
    exact ⟨rfl, rfl⟩
  · rw [heq] at h
    exact absurd h (by simp [buildMoveResult])

/-- Witness for C8 at a concrete rejected move. -/
theorem rejected_move_state_unchanged_witness :
    (processPlayerMove toyEngine none 0 "e2" "e4" none none).state = none ∧
    (processPlayerMove toyEngine none 0 "e2" "e4" none none).effects = [] :=
  rejected_move_state_unchanged toyEngine none 0 "e2" "e4" none none
    "Game not active" rfl

/-- C7 (confirmed): for every accepted move, the effect trace of the
WebSocket surface is exactly save-of-the-new-snapshot, audit logging,
response to the originating connection, broadcast to the remaining
connections — so the durable save precedes both the response and any
broadcast, and the originator receives the response before others receive the
broadcast; on the REST surface the save likewise precedes the broadcast and
the HTTP response. -/
theorem save_respond_broadcast_order (E : RulesEngine) (os : Option GameState)
    (now : Nat) (m : ClientMoveMsg) (ws : Nat)
    (h : (processMove E os now m ws).response.isSuccess = true) :
    wsTraceOrdered ws (processMove E os now m ws) = true ∧
    ((handleMove E os now m).response.isSuccess = true →
      restTraceOrdered (handleMove E os now m) = true) := by
  constructor
  · rcases playerMove_shape E os now m.fromSq m.toSq m.promotion none with
      ⟨m1, heq⟩ | ⟨s0, mo, hos, hact, happ, heq⟩
    · exfalso
      have h2 : (processMove E os now m ws).response = MoveResponse.error m1 := by
        simp only [processMove, heq]
      rw [h2] at h
      simp [MoveResponse.isSuccess] at h
    · simp [processMove, heq, wsTraceOrdered]
  · intro h2
    rcases playerMove_shape E os now m.fromSq m.toSq m.promotion m.playerToken with
      ⟨m1, heq⟩ | ⟨s0, mo, hos, hact, happ, heq⟩
    · exfalso
      have h3 : (handleMove E os now m).response = MoveResponse.error m1 := by
        simp only [handleMove, heq]
      rw [h3] at h2
      simp [MoveResponse.isSuccess] at h2
    · simp [handleMove, heq, restTraceOrdered, buildMoveResult, MoveResponse.isSuccess]

/-- Witness for C7 at a concrete accepted move over both surfaces. -/
theorem save_respond_broadcast_order_witness :
    wsTraceOrdered 0 (processMove toyEngine (some createdToy) 1 msgNoTok 0) = true ∧
    restTraceOrdered (handleMove toyEngine (some createdToy) 1 msgNoTok) = true := by
  have h := save_respond_broadcast_order toyEngine (some createdToy) 1 msgNoTok 0
    (by decide)
  exact ⟨h.1, h.2 (by decide)⟩

theorem turnValidation_token_irrelevant (E : RulesEngine) (s : GameState)
    (tok : Option String) (h : s.gameMode = GameMode.vsAI) :
    turnValidation E s tok = turnValidation E s none := by
  have hne : ¬ (s.gameMode = GameMode.vsPlayer) := by simp [h]
  simp only [turnValidation, if_neg hne]

theorem playerMove_token_irrelevant (E : RulesEngine) (s : GameState) (now : Nat)
    (a b : String) (p tok : Option String) (h : s.gameMode = GameMode.vsAI) :
    processPlayerMove E (some s) now a b p tok =
      processPlayerMove E (some s) now a b p none := by
  simp only [processPlayerMove, turnValidation_token_irrelevant E s tok h]

/-- Counterexample for C9: on an active TwoPlayer session with both seats
bound, the identical move message carrying the correct seat token is accepted
by the REST surface but rejected by the WebSocket surface (whose handler
never forwards the token), so the two surfaces are not
operation-for-operation equivalent. -/
theorem ws_rest_move_divergence_cex :
    toyMsg.playerToken = some "alice" ∧
    (processMove toyEngine (some twoPlayerState) 1 toyMsg 0).response =
      MoveResponse.error "Player token required for two-player games" ∧
    (handleMove toyEngine (some twoPlayerState) 1 toyMsg).response.isSuccess = true ∧
    (processMove toyEngine (some twoPlayerState) 1 toyMsg 0).response ≠
      (handleMove toyEngine (some twoPlayerState) 1 toyMsg).response := by decide

/-- C9 (corrected, amended): for SinglePlayerVsEngine sessions the WebSocket
move handler and the REST move handler produce the same response and the same
state for the same message; but for an active TwoPlayer session the WebSocket
handler drops the seat token, so every WebSocket move is rejected with the
token-required error and the state is unchanged, while only the REST handler
performs the full token/turn check. -/
theorem ws_rest_move_relationship (E : RulesEngine) (s : GameState) (now : Nat)
    (m : ClientMoveMsg) (ws : Nat) :
    (s.gameMode = GameMode.vsAI →
      (processMove E (some s) now m ws).response =
        (handleMove E (some s) now m).response ∧
      (processMove E (some s) now m ws).state = (handleMove E (some s) now m).state) ∧
    (s.gameMode = GameMode.vsPlayer → s.status = GameStatus.active →
      (processMove E (some s) now m ws).response =
        MoveResponse.error "Player token required for two-player games" ∧
      (processMove E (some s) now m ws).state = some s) := by
  constructor
  · intro h
    have hu := playerMove_token_irrelevant E s now m.fromSq m.toSq m.promotion
      m.playerToken h
    constructor
    · show (processPlayerMove E (some s) now m.fromSq m.toSq m.promotion none).response =
        (processPlayerMove E (some s) now m.fromSq m.toSq m.promotion m.playerToken).response
      rw [hu]
    · show (processPlayerMove E (some s) now m.fromSq m.toSq m.promotion none).state =
        (processPlayerMove E (some s) now m.fromSq m.toSq m.promotion m.playerToken).state
      rw [hu]
  · intro hm hact
    have hne : ¬ (s.status ≠ GameStatus.active) := by simp [hact]
    have hv : turnValidation E s none =
        some "Player token required for two-player games" := by
      simp [turnValidation, hm, truthy]
    constructor
    · show (processPlayerMove E (some s) now m.fromSq m.toSq m.promotion none).response = _
      simp only [processPlayerMove, if_neg hne, hv]
    · show (processPlayerMove E (some s) now m.fromSq m.toSq m.promotion none).state = _
      simp only [processPlayerMove, if_neg hne, hv]

/-- Witness for C9's amended theorem: the TwoPlayer WebSocket rejection and
the SinglePlayerVsEngine surface agreement, both at concrete inputs. -/
theorem ws_rest_move_relationship_witness :
    (processMove toyEngine (some twoPlayerState) 1 toyMsg 0).response =
      MoveResponse.error "Player token required for two-player games" ∧
    (processMove toyEngine (some createdToy) 1 msgNoTok 0).response =
      (handleMove toyEngine (some createdToy) 1 msgNoTok).response := by
  have h1 := ws_rest_move_relationship toyEngine twoPlayerState 1 toyMsg 0
  have h2 := ws_rest_move_relationship toyEngine createdToy 1 msgNoTok 0
  exact ⟨(h1.2 (by decide) (by decide)).1, (h2.1 (by decide)).1⟩
